import Mathlib

/-!
Verification of the dearpygui-map core: a shallow embedding of the
projection, viewport-tracking and tile-addressing logic of
`dearpygui_map/geo.py`, `dearpygui_map/tile_source.py` and
`dearpygui_map/widget.py`.

Python floats are embedded as exact rationals (every Python float is a
rational number) in the state-machine layer; the transcendental part of
the Web-Mercator projection (`asinh`, `tan`, `atan`, `sinh`) is embedded
over the reals in a separate analytic layer.
-/

namespace DpgMap

/-- Internal coordinate representation (`geo.py`, class `Coordinate`):
a point of the normalized projected plane, components in display units. -/
@[ext]
structure Coordinate where
  x : ℚ
  y : ℚ
deriving DecidableEq

/-- Web-Mercator latitude cutoff (`Coordinate.MAX_LATITUDE`). -/
def MAX_LATITUDE : ℚ := 85.0511287798

/-- Pixel offset (`Coordinate.with_screen_offset`): returns a new coordinate
shifted by `(dx, dy)` screen pixels at the given zoom and tile resolution,
`new = old + d / (2^zoom * resolution)` on each axis. -/
def Coordinate.with_screen_offset (c : Coordinate) (dx dy : ℚ) (zoom : ℤ)
    (resolution : ℚ × ℚ) : Coordinate :=
  ⟨c.x + dx / ((2 : ℚ) ^ zoom * resolution.1),
   c.y + dy / ((2 : ℚ) ^ zoom * resolution.2)⟩

/-- Truncated tile coordinates as in the `geo.py` snapshot
(`Coordinate.tile_xy`): multiply by `2^zoom` and floor, with no clamping
and no `floor_` parameter. -/
def Coordinate.tile_xy (c : Coordinate) (zoom : ℤ) : ℤ × ℤ :=
  (⌊c.x * (2 : ℚ) ^ zoom⌋, ⌊c.y * (2 : ℚ) ^ zoom⌋)

/-- Modelled from the spec: `toTileCoordinates(point, zoom, truncate=false)`,
the non-floored tile conversion. The `floor_=False` variant of
`Coordinate.tile_xy` is called by `widget.py` (`TileManager.set_origin`) and
by `tests/test_geo.py`, but the `geo.py` snapshot has no such parameter; per
the spec the conversion multiplies by `2^zoom` and clamps each axis into
`[0, 2^zoom - 1]`, returning the fractional (non-truncated) value. -/
def Coordinate.tile_xy_frac (c : Coordinate) (zoom : ℤ) : ℚ × ℚ :=
  (min (max (c.x * (2 : ℚ) ^ zoom) 0) ((2 : ℚ) ^ zoom - 1),
   min (max (c.y * (2 : ℚ) ^ zoom) 0) ((2 : ℚ) ^ zoom - 1))

/-- Map tile source (`tile_source.py`, dataclass `TileServer`). The field
`max_zoom_level` is modelled from the spec: `widget.py` reads
`tile_server.max_zoom_level`, and the spec's `TileServerConfig` carries a
maximum supported zoom level, but the `tile_source.py` snapshot lacks the
field. -/
structure TileServer where
  name : String
  base_url : String
  subdomains : List String
  thread_limit : ℕ
  tile_size : ℚ × ℚ
  max_zoom_level : ℤ
deriving DecidableEq

/-- Specification of a tile on a server (`tile_source.py`, dataclass
`TileSpec`). Dataclass equality is componentwise. -/
structure TileSpec where
  tile_x : ℤ
  tile_y : ℤ
  zoom_level : ℤ
  base_url : String
  subdomains : List String
  tile_size : ℚ × ℚ
deriving DecidableEq

/-- Build a tile specification from x, y, z (`TileServer.to_tile_spec`). -/
def TileServer.to_tile_spec (ts : TileServer) (tile_x tile_y zoom_level : ℤ) :
    TileSpec :=
  ⟨tile_x, tile_y, zoom_level, ts.base_url, ts.subdomains, ts.tile_size⟩

/-- Modelled from the spec: canvas pixel minimum of a tile. `widget.py`'s
`draw_tile` calls `tile_spec.canvas_coordinates()` with no arguments (the
origin offset is applied by a separate draw-node translation), while the
`tile_source.py` snapshot only has a two-argument offset variant; following
the spec's `canvasRect` with the tracker-applied offset factored out, the
pixel minimum is the tile coordinate times the tile size. -/
def TileSpec.canvas_coordinates (t : TileSpec) : ℚ × ℚ :=
  (t.tile_x * t.tile_size.1, t.tile_y * t.tile_size.2)

/-- State of the tile manager (`widget.py`, class `TileManager`). The field
`drawn` records the drawing actions issued to the GUI collaborator
(`dpg.draw_image` calls), so that "draws at most once" is statable; `tiles`
is the displayed-tiles collection `self.tiles`. -/
structure TileManager where
  origin : Coordinate
  viewport_size : ℚ × ℚ
  zoom_level : ℤ
  tile_server : TileServer
  tiles : List TileSpec
  last_drag : ℚ × ℚ
  origin_offset : ℚ × ℚ
  drawn : List (TileSpec × (ℚ × ℚ) × (ℚ × ℚ))
deriving DecidableEq

/-- Set the widget map origin (`TileManager.set_origin`): store the origin
and zoom level and recompute `origin_offset` as minus the fractional
(non-floored, clamped) tile coordinates of the origin times the tile size,
plus the pending drag. -/
def TileManager.set_origin (tm : TileManager) (origin : Coordinate)
    (zoom_level : ℤ) : TileManager :=
  let origin_xy := origin.tile_xy_frac zoom_level
  { tm with
    origin := origin
    zoom_level := zoom_level
    origin_offset := (-origin_xy.1 * tm.tile_server.tile_size.1 + tm.last_drag.1,
                      -origin_xy.2 * tm.tile_server.tile_size.2 + tm.last_drag.2) }

/-- Construction of a tile manager (`TileManager.__init__`): empty tile
registry, zero drag and offset, then `set_origin`. -/
def TileManager.init (origin : Coordinate) (width height : ℚ) (zoom_level : ℤ)
    (tile_server : TileServer) : TileManager :=
  TileManager.set_origin
    { origin := origin
      viewport_size := (width, height)
      zoom_level := zoom_level
      tile_server := tile_server
      tiles := []
      last_drag := (0, 0)
      origin_offset := (0, 0)
      drawn := [] }
    origin zoom_level

/-- Move the layer while dragging (`TileManager.drag_layer`): each call
replaces the pending drag with the total displacement since drag start. -/
def TileManager.drag_layer (tm : TileManager) (delta_x delta_y : ℚ) :
    TileManager :=
  { tm with last_drag := (delta_x, delta_y) }

/-- Finish dragging (`TileManager.finish_drag`): no-op when the pending drag
is zero, otherwise fold the drag into `origin_offset`, move the origin by
minus the drag (at the default 256x256 resolution, as in the source), and
clear the pending drag. -/
def TileManager.finish_drag (tm : TileManager) : TileManager :=
  if tm.last_drag = (0, 0) then tm
  else
    { tm with
      origin_offset := (tm.origin_offset.1 + tm.last_drag.1,
                        tm.origin_offset.2 + tm.last_drag.2)
      origin := tm.origin.with_screen_offset (-tm.last_drag.1) (-tm.last_drag.2)
                  tm.zoom_level (256, 256)
      last_drag := (0, 0) }

/-- Integer range `a, a+1, ..., b` (Python `range(a, b + 1)`). -/
def intRange (a b : ℤ) : List ℤ :=
  (List.range (b + 1 - a).toNat).map (fun i : ℕ => a + (i : ℤ))

/-- Visible tiles (`TileManager._get_visible_tiles`): take the viewport
corner points (origin shifted by minus the pending drag, and that point
shifted by the viewport size, both at the default 256x256 resolution as in
the source), truncate to tile coordinates, and enumerate the rectangle
expanded by `margin` on each side. The snapshot performs no clamping to the
valid tile range (its own FIXME comment notes that min/max may exceed map
limits). -/
def TileManager.visible_tiles (tm : TileManager) (margin : ℤ) :
    List (ℤ × ℤ × ℤ) :=
  let min_point := tm.origin.with_screen_offset (-tm.last_drag.1)
    (-tm.last_drag.2) tm.zoom_level (256, 256)
  let max_point := min_point.with_screen_offset tm.viewport_size.1
    tm.viewport_size.2 tm.zoom_level (256, 256)
  let min_xy := min_point.tile_xy tm.zoom_level
  let max_xy := max_point.tile_xy tm.zoom_level
  (intRange (min_xy.1 - margin) (max_xy.1 + margin)).flatMap fun tx =>
    (intRange (min_xy.2 - margin) (max_xy.2 + margin)).map fun ty =>
      (tx, ty, tm.zoom_level)

/-- Tile-arrival handler (`TileManager.draw_tile`): if the spec is already
displayed, do nothing; otherwise compute the canvas rectangle, try to load
the image (`load` stands for the external `dpg.load_image`); on failure do
nothing, on success append the spec to `tiles` and issue the drawing
action. -/
def TileManager.draw_tile {Img : Type} (load : TileSpec → Option Img)
    (tm : TileManager) (tile_spec : TileSpec) : TileManager :=
  if tile_spec ∈ tm.tiles then tm
  else
    let pmin := tile_spec.canvas_coordinates
    let pmax := (pmin.1 + tile_spec.tile_size.1, pmin.2 + tile_spec.tile_size.2)
    match load tile_spec with
    | none => tm
    | some _ =>
      { tm with
        tiles := tm.tiles ++ [tile_spec]
        drawn := tm.drawn ++ [(tile_spec, pmin, pmax)] }

/-- Process a sequence of tile arrivals through `draw_tile`. -/
def TileManager.process_arrivals {Img : Type} (load : TileSpec → Option Img)
    (tm : TileManager) (arrivals : List TileSpec) : TileManager :=
  arrivals.foldl (TileManager.draw_tile load) tm

/-- Number of drawing actions issued for a given tile specification. -/
def TileManager.drawnCount (tm : TileManager) (t : TileSpec) : ℕ :=
  (tm.drawn.filter fun e => decide (e.1 = t)).length

/-- State of the map widget (`widget.py`, class `MapWidget`). -/
structure MapWidget where
  width : ℚ
  height : ℚ
  origin : Coordinate
  zoom_level : ℤ
  tile_manager : TileManager
  last_drag : ℚ × ℚ
deriving DecidableEq

/-- Construction of a map widget (`MapWidget.__init__`) from the projected
center point: the origin is the center shifted by `(-width/2, -height/2)`
screen pixels at the tile server's resolution. The `center` parameter is
the already-projected `Coordinate.from_latlon(*center)` value; the
transcendental projection itself lives in the real-valued layer below. -/
def MapWidget.init (width height : ℚ) (center : Coordinate) (zoom_level : ℤ)
    (tile_server : TileServer) : MapWidget :=
  let origin := center.with_screen_offset (-(width / 2)) (-(height / 2))
    zoom_level tile_server.tile_size
  { width := width
    height := height
    origin := origin
    zoom_level := zoom_level
    tile_manager := TileManager.init origin width height zoom_level tile_server
    last_drag := (0, 0) }

/-- Zoom while keeping focus on a canvas point (`MapWidget.zoom_on_point`):
an out-of-range zoom level is a silent no-op; otherwise re-anchor the origin
so the geographic point under `canvas_position` keeps its screen position,
store the new zoom level and propagate to the tile manager. -/
def MapWidget.zoom_on_point (w : MapWidget) (canvas_position : ℚ × ℚ)
    (zoom_level : ℤ) : MapWidget :=
  if zoom_level < 0 ∨ zoom_level > w.tile_manager.tile_server.max_zoom_level then
    w
  else
    let res := w.tile_manager.tile_server.tile_size
    let focus := w.origin.with_screen_offset canvas_position.1 canvas_position.2
      w.zoom_level res
    let new_origin := focus.with_screen_offset (-canvas_position.1)
      (-canvas_position.2) zoom_level res
    { w with
      origin := new_origin
      zoom_level := zoom_level
      tile_manager := w.tile_manager.set_origin new_origin zoom_level }

/-- Coordinate for a point on canvas (`MapWidget.get_coordinate`). -/
def MapWidget.get_coordinate (w : MapWidget) (canvas_x canvas_y : ℚ) :
    Coordinate :=
  w.origin.with_screen_offset canvas_x canvas_y w.zoom_level
    w.tile_manager.tile_server.tile_size

/-- Longitude to normalized x with the out-of-range check
(`Coordinate._lon_to_x`); the `Except` error stands for the Python
`ValueError`. -/
def lon_to_x (lon : ℚ) : Except String ℚ :=
  if lon > 180 ∨ lon < -180 then .error "Longitude must be -180...180"
  else .ok ((lon + 180) / 360)

/-- Normalized y of a latitude (the formula of `Coordinate._lat_to_y`):
`(1 - asinh(tan(radians lat)) / pi) / 2`, over the reals. -/
noncomputable def latToY (lat : ℝ) : ℝ :=
  (1 - Real.arsinh (Real.tan (lat * Real.pi / 180)) / Real.pi) / 2

/-- Normalized x of a longitude (the formula of `Coordinate._lon_to_x`),
over the reals. -/
noncomputable def lonToX (lon : ℝ) : ℝ := (lon + 180) / 360

/-- Inverse projection (`Coordinate.latlon`): from normalized `(x, y)` back
to `(lat, lon)` degrees, `lat = degrees(atan(sinh(pi * (1 - 2 y))))` and
`lon = x * 360 - 180`. -/
noncomputable def latlonOf (px py : ℝ) : ℝ × ℝ :=
  (Real.arctan (Real.sinh (Real.pi * (1 - 2 * py))) * 180 / Real.pi,
   px * 360 - 180)

/-- Latitude to normalized y with the out-of-range check
(`Coordinate._lat_to_y`). -/
noncomputable def lat_to_y (lat : ℚ) : Except String ℝ :=
  if lat > MAX_LATITUDE ∨ lat < -MAX_LATITUDE then
    .error "Latitude out of bounds"
  else .ok (latToY (lat : ℝ))

/-- Projection constructor (`Coordinate.from_latlon`): longitude is
converted (and checked) first, then latitude, as in the source. -/
noncomputable def from_latlon (lat lon : ℚ) : Except String (ℝ × ℝ) :=
  match lon_to_x lon with
  | .error e => .error e
  | .ok cx =>
    match lat_to_y lat with
    | .error e => .error e
    | .ok cy => .ok ((cx : ℝ), cy)

/-- Whether an `Except` value is a success. -/
def exceptIsOk {ε α : Type} : Except ε α → Bool
  | .ok _ => true
  | .error _ => false

/-- Longitude to x pixel coordinate at a zoom level (`geo._lon_to_x_px`). -/
noncomputable def lonToXpx (lon : ℝ) (zoom : ℕ) : ℝ := lonToX lon * 2 ^ zoom

/-- Latitude to y pixel coordinate at a zoom level (`geo._lat_to_y_px`). -/
noncomputable def latToYpx (lat : ℝ) (zoom : ℕ) : ℝ := latToY lat * 2 ^ zoom

/-- Longitude to truncated tile x coordinate (`geo._lon_to_x`). -/
noncomputable def lonToTile (lon : ℝ) (zoom : ℕ) : ℤ := ⌊lonToXpx lon zoom⌋

/-- Latitude to truncated tile y coordinate (`geo._lat_to_y`). -/
noncomputable def latToTile (lat : ℝ) (zoom : ℕ) : ℤ := ⌊latToYpx lat zoom⌋

/-- Tile descriptors inside a bounding box (`geo.get_tile_xyz_bbox`):
x limits from the longitude entries (indices 1 and 3 of
`(lat_min, lon_min, lat_max, lon_max)`), y limits from the latitude
entries, then the product `range(min, max + 1) x range(min, max + 1)`
with x varying in the outer loop. -/
noncomputable def get_tile_xyz_bbox (bbox : ℝ × ℝ × ℝ × ℝ) (zoom : ℕ) :
    List (ℤ × ℤ × ℕ) :=
  let x1 := lonToTile bbox.2.1 zoom
  let x2 := lonToTile bbox.2.2.2 zoom
  let y1 := latToTile bbox.1 zoom
  let y2 := latToTile bbox.2.2.1 zoom
  (intRange (min x1 x2) (max x1 x2)).flatMap fun tx =>
    (intRange (min y1 y2) (max y1 y2)).map fun ty => (tx, ty, zoom)

/-- Projected center for latitude 60.1641, longitude 24.9402: the exact
float constants pinned by the repository's own test
(`test_geo.test_coordinate_from_latlon` asserts that
`Coordinate.from_latlon(60.1641, 24.9402)` equals
`Coordinate(x=0.5692783333333333, y=0.28948570416212227)` under exact
equality). -/
def helsinkiCenter : Coordinate := ⟨0.5692783333333333, 0.28948570416212227⟩

/-- OpenStreetMap tile server constant (`tile_source.py`); the
`max_zoom_level` value 19 is modelled from the spec's maximum supported
zoom level field (the snapshot does not pin a number). -/
def OpenStreetMap : TileServer :=
  { name := "OpenStreetMap"
    base_url := "http://{subdomain}.tile.openstreetmap.org/{z}/{x}/{y}.png"
    subdomains := ["a", "b", "c"]
    thread_limit := 2
    tile_size := (256, 256)
    max_zoom_level := 19 }

/-- Map widget of the visible-range scenario: 700x500 viewport centered at
Helsinki, zoom 12, OpenStreetMap tiles. -/
def c3Widget : MapWidget := MapWidget.init 700 500 helsinkiCenter 12 OpenStreetMap

/-- Small concrete tile manager used for witnesses and counterexamples:
origin at the projected plane's corner, zoom 1, one-tile viewport. -/
def witnessManager : TileManager :=
  { origin := ⟨0, 0⟩
    viewport_size := (256, 256)
    zoom_level := 1
    tile_server := OpenStreetMap
    tiles := []
    last_drag := (0, 0)
    origin_offset := (0, 0)
    drawn := [] }

/-- Concrete tile specification used for witnesses. -/
def witnessSpec : TileSpec := ⟨0, 0, 1, "u", [], (256, 256)⟩

/-- Membership in an integer range list. -/
theorem mem_intRange {a b x : ℤ} (h1 : a ≤ x) (h2 : x ≤ b) : x ∈ intRange a b := by
  have hx : a + (((x - a).toNat : ℕ) : ℤ) = x := by omega
  have hmem : (x - a).toNat ∈ List.range (b + 1 - a).toNat :=
    List.mem_range.mpr (by omega)
  have hmap := List.mem_map_of_mem (fun i : ℕ => a + (i : ℤ)) hmem
  simp only [] at hmap
  rw [hx] at hmap
  exact hmap

/-- C1: the claim states that tile conversion clamps into `[0, 2^zoom - 1]`
and that the visible-tile range, after expanding by the margin, contains
only tile addresses within `[0, 2^zoom - 1]`. The code violates this: with
the origin at the corner of the projected plane, zoom level 1 and the
margin 2 used by `_required_tiles_for_view`, `_get_visible_tiles` yields
the negative tile address `(-2, -2, 1)` (the snapshot's own FIXME comment
acknowledges the missing clamp, and the snapshot's `tile_xy` lacks both the
clamp and the `floor_` parameter its callers and tests use). -/
theorem C1_visible_tiles_out_of_range :
    (-2, -2, 1) ∈ witnessManager.visible_tiles 2 ∧ ¬ (0 ≤ (-2 : ℤ)) := by
  refine ⟨?_, by norm_num⟩
  have h1 : witnessManager.visible_tiles 2 =
      (intRange (-2) 3).flatMap fun tx =>
        (intRange (-2) 3).map fun ty => (tx, ty, 1) := by
    simp only [witnessManager, TileManager.visible_tiles,
      Coordinate.with_screen_offset, Coordinate.tile_xy]
    norm_num
  rw [h1]
  refine List.mem_flatMap.mpr ⟨-2, ?_, List.mem_map.mpr ⟨-2, ?_, rfl⟩⟩ <;>
    exact mem_intRange (by norm_num) (by norm_num)

/-- C2: `zoom_on_point` with a zoom level that is negative or above the
tile server's maximum is a silent no-op leaving the whole widget state
unchanged. -/
theorem C2_invalid_zoom_is_noop (w : MapWidget) (p : ℚ × ℚ) (z : ℤ)
    (h : z < 0 ∨ z > w.tile_manager.tile_server.max_zoom_level) :
    w.zoom_on_point p z = w := by
  simp only [MapWidget.zoom_on_point, if_pos h]

/-- Witness for C2 at a concrete widget and the invalid zoom level 25. -/
theorem C2_invalid_zoom_is_noop_witness :
    c3Widget.zoom_on_point (10, 20) 25 = c3Widget :=
  C2_invalid_zoom_is_noop c3Widget (10, 20) 25
    (by
      right
      norm_num [c3Widget, MapWidget.init, TileManager.init,
        TileManager.set_origin, OpenStreetMap])

/-- C3: the 700x500 viewport centered at Helsinki at zoom 12 with 256x256
tiles yields the origin offset `(-596581.5976533333, -303297.7617275015)`
(as exact rationals, within `10^-6` of the quoted float constants), and
`set_origin` computes the offset as minus the fractional non-floored tile
coordinates of the origin times the tile size. -/
theorem C3_origin_offset_scenario :
    |c3Widget.tile_manager.origin_offset.1 - (-596581.5976533333 : ℚ)|
        < 1 / 1000000 ∧
      |c3Widget.tile_manager.origin_offset.2 - (-303297.7617275015 : ℚ)|
        < 1 / 1000000 ∧
      c3Widget.tile_manager.origin_offset =
        (-(c3Widget.origin.tile_xy_frac 12).1 * 256,
         -(c3Widget.origin.tile_xy_frac 12).2 * 256) := by
  refine ⟨?_, ?_, ?_⟩ <;>
    simp only [c3Widget, MapWidget.init, TileManager.init,
      TileManager.set_origin, Coordinate.with_screen_offset,
      Coordinate.tile_xy_frac, helsinkiCenter, OpenStreetMap, abs_lt] <;>
    norm_num

/-- C7: a drag by `(dx, dy)` committed, followed by the opposite drag
`(-dx, -dy)` committed, restores the origin exactly and leaves the pending
drag at `(0, 0)`. -/
theorem C7_drag_revert (tm : TileManager) (dx dy : ℚ) :
    ((((tm.drag_layer dx dy).finish_drag).drag_layer (-dx) (-dy)).finish_drag).origin
        = tm.origin ∧
      ((((tm.drag_layer dx dy).finish_drag).drag_layer (-dx)
          (-dy)).finish_drag).last_drag = (0, 0) := by
  by_cases h : (dx, dy) = ((0 : ℚ), (0 : ℚ))
  · rw [Prod.mk.injEq] at h
    obtain ⟨hx, hy⟩ := h
    subst hx; subst hy
    simp [TileManager.drag_layer, TileManager.finish_drag]
  · have hneg : ((-dx, -dy) : ℚ × ℚ) ≠ (0, 0) := by
      simp only [ne_eq, Prod.mk.injEq, neg_eq_zero]
      intro hc
      exact h (by simpa [Prod.mk.injEq] using hc)
    simp only [TileManager.drag_layer, TileManager.finish_drag, if_neg h,
      if_neg hneg, Coordinate.with_screen_offset]
    constructor
    · ext <;> simp <;> ring
    · trivial

/-- C6: for an idle widget and a valid new zoom level, zooming at canvas
point `(0, 0)` leaves the origin coordinate unchanged, and in general the
geographic point under the given canvas point at the old zoom equals the
point under the same canvas point at the new zoom after the operation. -/
theorem C6_zoom_anchoring (w : MapWidget) (z : ℤ) (px py : ℚ)
    (_hidle : w.last_drag = (0, 0)) (h0 : 0 ≤ z)
    (h1 : z ≤ w.tile_manager.tile_server.max_zoom_level) :
    (w.zoom_on_point (0, 0) z).origin = w.origin ∧
      (w.zoom_on_point (px, py) z).get_coordinate px py =
        w.get_coordinate px py := by
  have hng : ¬ (z < 0 ∨ z > w.tile_manager.tile_server.max_zoom_level) := by
    push_neg
    exact ⟨h0, h1⟩
  constructor
  · simp only [MapWidget.zoom_on_point, if_neg hng,
      Coordinate.with_screen_offset]
    ext <;> simp
  · simp only [MapWidget.zoom_on_point, MapWidget.get_coordinate,
      TileManager.set_origin, if_neg hng, Coordinate.with_screen_offset]
    ext <;> simp <;> ring

/-- Witness for C6 at the Helsinki widget, new zoom level 13 and canvas
point (3, 4). -/
theorem C6_zoom_anchoring_witness :
    (c3Widget.zoom_on_point (0, 0) 13).origin = c3Widget.origin ∧
      (c3Widget.zoom_on_point (3, 4) 13).get_coordinate 3 4 =
        c3Widget.get_coordinate 3 4 :=
  C6_zoom_anchoring c3Widget 13 3 4 rfl (by norm_num)
    (by
      norm_num [c3Widget, MapWidget.init, TileManager.init,
        TileManager.set_origin, OpenStreetMap])

/-- Preservation of the dedup invariant by a single tile arrival: if the
displayed-tiles list holds a given spec at most once and the number of
drawing actions for it is bounded by that count, the same holds after
`draw_tile` processes any arriving spec. -/
theorem draw_tile_count_invariant {Img : Type} (load : TileSpec → Option Img)
    (tm : TileManager) (t a : TileSpec)
    (h1 : tm.tiles.count t ≤ 1) (h2 : tm.drawnCount t ≤ tm.tiles.count t) :
    (TileManager.draw_tile load tm a).tiles.count t ≤ 1 ∧
      (TileManager.draw_tile load tm a).drawnCount t ≤
        (TileManager.draw_tile load tm a).tiles.count t := by
  unfold TileManager.draw_tile
  by_cases hmem : a ∈ tm.tiles
  · rw [if_pos hmem]
    exact ⟨h1, h2⟩
  · rw [if_neg hmem]
    rcases hload : load a with _ | img
    · simp only [hload]
      exact ⟨h1, h2⟩
    · simp only [hload]
      by_cases hat : a = t
      · subst hat
        have hzero : tm.tiles.count a = 0 := List.count_eq_zero.mpr hmem
        have hdz : (tm.drawn.filter fun e => decide (e.1 = a)).length = 0 := by
          have h2' := h2
          rw [TileManager.drawnCount, hzero, Nat.le_zero] at h2'
          exact h2'
        constructor
        · rw [List.count_append, hzero]
          simp
        · simp only [TileManager.drawnCount, List.filter_append,
            List.length_append, List.count_append, hzero, hdz]
          simp
      · have hca : List.count t [a] = 0 := by
          rw [List.count_eq_zero, List.mem_singleton]
          exact fun hmem2 => hat hmem2.symm
        have hfa : (List.filter (fun e => decide (e.1 = t))
            [(a, a.canvas_coordinates,
              (a.canvas_coordinates.1 + a.tile_size.1,
               a.canvas_coordinates.2 + a.tile_size.2))]).length = 0 := by
          simp [hat]
        constructor
        · rw [List.count_append, hca]
          omega
        · rw [TileManager.drawnCount] at h2 ⊢
          simp only [List.filter_append, List.length_append,
            List.count_append]
          rw [hca, hfa]
          omega

/-- The dedup invariant is preserved along any sequence of arrivals. -/
theorem process_arrivals_invariant {Img : Type} (load : TileSpec → Option Img)
    (t : TileSpec) (arrivals : List TileSpec) :
    ∀ tm : TileManager,
      tm.tiles.count t ≤ 1 → tm.drawnCount t ≤ tm.tiles.count t →
      (TileManager.process_arrivals load tm arrivals).tiles.count t ≤ 1 ∧
        (TileManager.process_arrivals load tm arrivals).drawnCount t ≤
          (TileManager.process_arrivals load tm arrivals).tiles.count t := by
  induction arrivals with
  | nil => exact fun tm h1 h2 => ⟨h1, h2⟩
  | cons a rest ih =>
    intro tm h1 h2
    have hstep := draw_tile_count_invariant load tm t a h1 h2
    simp only [TileManager.process_arrivals, List.foldl_cons] at *
    exact ih _ hstep.1 hstep.2

/-- C9: the tile-arrival handler is idempotent per tile spec: a call with an
already-displayed spec leaves the state unchanged, and along any sequence of
arrivals a given spec is added to the displayed-tiles list at most once and
its drawing action is performed at most once. -/
theorem C9_draw_tile_dedup {Img : Type} (load : TileSpec → Option Img)
    (tm : TileManager) (t : TileSpec) (arrivals : List TileSpec)
    (h1 : tm.tiles.count t ≤ 1) (h2 : tm.drawnCount t ≤ tm.tiles.count t) :
    (t ∈ tm.tiles → TileManager.draw_tile load tm t = tm) ∧
      (TileManager.process_arrivals load tm arrivals).tiles.count t ≤ 1 ∧
        (TileManager.process_arrivals load tm arrivals).drawnCount t ≤ 1 := by
  refine ⟨fun hmem => by simp only [TileManager.draw_tile, if_pos hmem], ?_, ?_⟩
  · exact (process_arrivals_invariant load t arrivals tm h1 h2).1
  · have h := process_arrivals_invariant load t arrivals tm h1 h2
    exact le_trans h.2 h.1

/-- Witness for C9: a fresh manager receiving the same tile spec twice with
an always-succeeding loader. -/
theorem C9_draw_tile_dedup_witness :
    (witnessSpec ∈ witnessManager.tiles →
        TileManager.draw_tile (fun _ => some (0 : ℕ)) witnessManager
          witnessSpec = witnessManager) ∧
      (TileManager.process_arrivals (fun _ => some (0 : ℕ)) witnessManager
          [witnessSpec, witnessSpec]).tiles.count witnessSpec ≤ 1 ∧
        (TileManager.process_arrivals (fun _ => some (0 : ℕ)) witnessManager
            [witnessSpec, witnessSpec]).drawnCount witnessSpec ≤ 1 :=
  C9_draw_tile_dedup (fun _ => some (0 : ℕ)) witnessManager witnessSpec
    [witnessSpec, witnessSpec] (by simp [witnessManager])
    (by simp [witnessManager, TileManager.drawnCount])

/-- C5: `from_latlon` fails exactly when the latitude exceeds the
Web-Mercator cutoff in absolute value or the longitude exceeds 180 in
absolute value (boundaries included succeed), and in particular the four
boundary-rejection inputs of the spec all fail. -/
theorem C5_from_latlon_range :
    (∀ lat lon : ℚ, exceptIsOk (from_latlon lat lon) = false ↔
        MAX_LATITUDE < |lat| ∨ 180 < |lon|) ∧
      exceptIsOk (from_latlon 86 0) = false ∧
        exceptIsOk (from_latlon (-86) 0) = false ∧
          exceptIsOk (from_latlon 60 181) = false ∧
            exceptIsOk (from_latlon 60 (-200)) = false := by
  refine ⟨fun lat lon => ⟨?_, ?_⟩, ?_, ?_, ?_, ?_⟩
  · intro hfalse
    by_contra hcon
    push_neg at hcon
    obtain ⟨hlatle, hlonle⟩ := hcon
    rw [abs_le] at hlatle hlonle
    have hx1 : ¬ (lon > 180 ∨ lon < -180) := by
      push_neg
      exact ⟨hlonle.2, by linarith [hlonle.1]⟩
    have hx2 : ¬ (lat > MAX_LATITUDE ∨ lat < -MAX_LATITUDE) := by
      push_neg
      exact ⟨hlatle.2, by linarith [hlatle.1]⟩
    simp [from_latlon, lon_to_x, lat_to_y, if_neg hx1, if_neg hx2,
      exceptIsOk] at hfalse
  · intro hcon
    by_cases hlon2 : lon > 180 ∨ lon < -180
    · simp [from_latlon, lon_to_x, if_pos hlon2, exceptIsOk]
    · have hlat2 : lat > MAX_LATITUDE ∨ lat < -MAX_LATITUDE := by
        push_neg at hlon2
        rcases hcon with h | h
        · rcases lt_abs.mp h with h' | h'
          · exact Or.inl h'
          · exact Or.inr (by linarith)
        · rcases lt_abs.mp h with h' | h' <;> [linarith [hlon2.1]; linarith [hlon2.2]]
      simp [from_latlon, lon_to_x, lat_to_y, if_neg hlon2, if_pos hlat2,
        exceptIsOk]
  · norm_num [from_latlon, lon_to_x, lat_to_y, MAX_LATITUDE, exceptIsOk]
  · norm_num [from_latlon, lon_to_x, lat_to_y, MAX_LATITUDE, exceptIsOk]
  · norm_num [from_latlon, lon_to_x, lat_to_y, MAX_LATITUDE, exceptIsOk]
  · norm_num [from_latlon, lon_to_x, lat_to_y, MAX_LATITUDE, exceptIsOk]

/-- C4: the projection round-trip is the identity on its domain: for every
latitude within the Web-Mercator cutoff and every longitude within 180 in
absolute value, `latlonOf (lonToX lon) (latToY lat) = (lat, lon)` exactly
over the reals (hence within any floating-point tolerance). -/
theorem C4_latlon_roundtrip (lat lon : ℝ) (hlat : |lat| ≤ 85.0511287798)
    (_hlon : |lon| ≤ 180) :
    latlonOf (lonToX lon) (latToY lat) = (lat, lon) := by
  have hpi := Real.pi_pos
  obtain ⟨hlat1, hlat2⟩ := abs_le.mp hlat
  have hrad1 : -(Real.pi / 2) < lat * Real.pi / 180 := by nlinarith
  have hrad2 : lat * Real.pi / 180 < Real.pi / 2 := by nlinarith
  have hinner : Real.pi * (1 - 2 * latToY lat) =
      Real.arsinh (Real.tan (lat * Real.pi / 180)) := by
    rw [latToY]
    field_simp
    ring
  rw [latlonOf, Prod.mk.injEq]
  constructor
  · rw [hinner, Real.sinh_arsinh, Real.arctan_tan hrad1 hrad2]
    field_simp
  · rw [lonToX]
    ring

/-- Witness for C4 at the origin of the coordinate system. -/
theorem C4_latlon_roundtrip_witness :
    latlonOf (lonToX 0) (latToY 0) = (0, 0) :=
  C4_latlon_roundtrip 0 0 (by norm_num) (by norm_num)

/-- C10: when the arriving tile is not yet displayed and the image fails to
load, `draw_tile` leaves the whole manager state unchanged, so the tile
stays eligible for a later retry. -/
theorem C10_draw_tile_load_failure {Img : Type} (load : TileSpec → Option Img)
    (tm : TileManager) (t : TileSpec) (hmem : t ∉ tm.tiles)
    (hload : load t = none) :
    TileManager.draw_tile load tm t = tm := by
  simp only [TileManager.draw_tile, if_neg hmem, hload]

/-- Witness for C10: a fresh manager, a tile spec not yet displayed, and a
loader that always fails. -/
theorem C10_draw_tile_load_failure_witness :
    TileManager.draw_tile (fun _ => (none : Option ℕ)) witnessManager
        witnessSpec = witnessManager :=
  C10_draw_tile_load_failure (fun _ => (none : Option ℕ)) witnessManager
    witnessSpec (by simp [witnessManager]) rfl



/-- Quartic Taylor window bounds for sine and cosine on a positive
subinterval of the unit interval. -/
theorem sin_cos_base_bounds {x u1 u2 : ℝ} (h0 : 0 < u1) (hx1 : u1 ≤ x)
    (hx2 : x ≤ u2) (hu2 : u2 ≤ 1) :
    u1 - u2 ^ 3 / 6 - u2 ^ 4 * (5 / 96) ≤ Real.sin x ∧
      Real.sin x ≤ u2 - u1 ^ 3 / 6 + u2 ^ 4 * (5 / 96) ∧
        1 - u2 ^ 2 / 2 - u2 ^ 4 * (5 / 96) ≤ Real.cos x ∧
          Real.cos x ≤ 1 - u1 ^ 2 / 2 + u2 ^ 4 * (5 / 96) := by
  have hxpos : 0 < x := lt_of_lt_of_le h0 hx1
  have habs : |x| ≤ 1 := by
    rw [abs_le]
    constructor <;> linarith
  have hs := Real.sin_bound habs
  have hc := Real.cos_bound habs
  rw [abs_of_pos hxpos, abs_le] at hs hc
  have hx3l : u1 ^ 3 ≤ x ^ 3 := pow_le_pow_left (le_of_lt h0) hx1 3
  have hx3u : x ^ 3 ≤ u2 ^ 3 := pow_le_pow_left (le_of_lt hxpos) hx2 3
  have hx4 : x ^ 4 ≤ u2 ^ 4 := pow_le_pow_left (le_of_lt hxpos) hx2 4
  have hx2l : u1 ^ 2 ≤ x ^ 2 := pow_le_pow_left (le_of_lt h0) hx1 2
  have hx2u : x ^ 2 ≤ u2 ^ 2 := pow_le_pow_left (le_of_lt hxpos) hx2 2
  refine ⟨by linarith [hs.1], by linarith [hs.2], by linarith [hc.1],
    by linarith [hc.2]⟩

/-- Interval propagation through the double-angle identities: bounds for
sine and cosine at an angle yield bounds at twice the angle. -/
theorem sin_cos_double_bounds {a s1 s2 c1 c2 : ℝ}
    (hsl : s1 ≤ Real.sin a) (hsu : Real.sin a ≤ s2)
    (hcl : c1 ≤ Real.cos a) (hcu : Real.cos a ≤ c2)
    (hs1 : 0 ≤ s1) (hc1 : 0 ≤ c1) :
    2 * s1 * c1 ≤ Real.sin (2 * a) ∧ Real.sin (2 * a) ≤ 2 * s2 * c2 ∧
      1 - 2 * s2 ^ 2 ≤ Real.cos (2 * a) ∧
        Real.cos (2 * a) ≤ 1 - 2 * s1 ^ 2 := by
  have hs := Real.sin_two_mul a
  have hpy := Real.sin_sq_add_cos_sq a
  have hc : Real.cos (2 * a) = 1 - 2 * Real.sin a ^ 2 := by
    have h1 := Real.cos_two_mul a
    nlinarith
  refine ⟨?_, ?_, ?_, ?_⟩
  · rw [hs]
    nlinarith [mul_le_mul hsl hcl hc1 (le_trans hs1 hsl)]
  · rw [hs]
    nlinarith [mul_le_mul hsu hcu (le_trans hc1 hcl)
      (le_trans (le_trans hs1 hsl) hsu)]
  · rw [hc]
    nlinarith [mul_self_le_mul_self (le_trans hs1 hsl) hsu]
  · rw [hc]
    nlinarith [mul_self_le_mul_self hs1 hsl]


/-- Rational bounds on the latitude angle 60.15198 degrees in radians. -/
theorem thetaA_bounds :
    1.04985010259377 ≤ ((60.15198 : ℝ) * Real.pi / 180) ∧ ((60.15198 : ℝ) * Real.pi / 180) ≤ 1.04985010259378 := by
  have h1 := Real.pi_gt_d20
  have h2 := Real.pi_lt_d20
  constructor <;> nlinarith

/-- Taylor bounds for sine and cosine at one 64th of the angle. -/
theorem sinCosA0 :
    0.016403168398767 ≤ Real.sin (((60.15198 : ℝ) * Real.pi / 180) / 64) ∧
      Real.sin (((60.15198 : ℝ) * Real.pi / 180) / 64) ≤ 0.016403175941315 ∧
        0.9998654521323 ≤ Real.cos (((60.15198 : ℝ) * Real.pi / 180) / 64) ∧
          Real.cos (((60.15198 : ℝ) * Real.pi / 180) / 64) ≤ 0.999865459674849 := by
  obtain ⟨ht1, ht2⟩ := thetaA_bounds
  have hb := @sin_cos_base_bounds (((60.15198 : ℝ) * Real.pi / 180) / 64) 0.0164039078530276 0.0164039078530279
    (by norm_num) (by linarith) (by linarith) (by norm_num)
  exact ⟨le_trans (by norm_num) hb.1, le_trans hb.2.1 (by norm_num),
    le_trans (by norm_num) hb.2.2.1, le_trans hb.2.2.2 (by norm_num)⟩

/-- Doubling step 1 of the sine and cosine interval chain. -/
theorem sinCosA1 :
    0.03280192277487 ≤ Real.sin (((60.15198 : ℝ) * Real.pi / 180) / 32) ∧
      Real.sin (((60.15198 : ℝ) * Real.pi / 180) / 32) ≤ 0.032801938105381 ∧
        0.999461871638076 ≤ Real.cos (((60.15198 : ℝ) * Real.pi / 180) / 32) ∧
          Real.cos (((60.15198 : ℝ) * Real.pi / 180) / 32) ≤ 0.999461872132964 := by
  have hp := sinCosA0
  have heq : ((60.15198 : ℝ) * Real.pi / 180) / 32 = 2 * (((60.15198 : ℝ) * Real.pi / 180) / 64) := by ring
  rw [heq]
  have hd := sin_cos_double_bounds hp.1 hp.2.1 hp.2.2.1 hp.2.2.2
    (by norm_num) (by norm_num)
  exact ⟨le_trans (by norm_num) hd.1, le_trans hd.2.1 (by norm_num),
    le_trans (by norm_num) hd.2.2.1, le_trans hd.2.2.2 (by norm_num)⟩

/-- Doubling step 2 of the sine and cosine interval chain. -/
theorem sinCosA2 :
    0.065568542259798 ≤ Real.sin (((60.15198 : ℝ) * Real.pi / 180) / 16) ∧
      Real.sin (((60.15198 : ℝ) * Real.pi / 180) / 16) ≤ 0.065568572936788 ∧
        0.997848065713061 ≤ Real.cos (((60.15198 : ℝ) * Real.pi / 180) / 16) ∧
          Real.cos (((60.15198 : ℝ) * Real.pi / 180) / 16) ≤ 0.997848067724543 := by
  have hp := sinCosA1
  have heq : ((60.15198 : ℝ) * Real.pi / 180) / 16 = 2 * (((60.15198 : ℝ) * Real.pi / 180) / 32) := by ring
  rw [heq]
  have hd := sin_cos_double_bounds hp.1 hp.2.1 hp.2.2.1 hp.2.2.2
    (by norm_num) (by norm_num)
  exact ⟨le_trans (by norm_num) hd.1, le_trans hd.2.1 (by norm_num),
    le_trans (by norm_num) hd.2.2.1, le_trans hd.2.2.2 (by norm_num)⟩

/-- Doubling step 3 of the sine and cosine interval chain. -/
theorem sinCosA3 :
    0.130854886131129 ≤ Real.sin (((60.15198 : ℝ) * Real.pi / 180) / 8) ∧
      Real.sin (((60.15198 : ℝ) * Real.pi / 180) / 8) ≤ 0.13085494761686 ∧
        0.991401524486066 ≤ Real.cos (((60.15198 : ℝ) * Real.pi / 180) / 8) ∧
          Real.cos (((60.15198 : ℝ) * Real.pi / 180) / 8) ≤ 0.991401532531851 := by
  have hp := sinCosA2
  have heq : ((60.15198 : ℝ) * Real.pi / 180) / 8 = 2 * (((60.15198 : ℝ) * Real.pi / 180) / 16) := by ring
  rw [heq]
  have hd := sin_cos_double_bounds hp.1 hp.2.1 hp.2.2.1 hp.2.2.2
    (by norm_num) (by norm_num)
  exact ⟨le_trans (by norm_num) hd.1, le_trans hd.2.1 (by norm_num),
    le_trans (by norm_num) hd.2.2.1, le_trans hd.2.2.2 (by norm_num)⟩

/-- Doubling step 4 of the sine and cosine interval chain. -/
theorem sinCosA4 :
    0.259459467193703 ≤ Real.sin (((60.15198 : ℝ) * Real.pi / 180) / 4) ∧
      Real.sin (((60.15198 : ℝ) * Real.pi / 180) / 4) ≤ 0.259459591213461 ∧
        0.965753965368377 ≤ Real.cos (((60.15198 : ℝ) * Real.pi / 180) / 4) ∧
          Real.cos (((60.15198 : ℝ) * Real.pi / 180) / 4) ≤ 0.965753997551219 := by
  have hp := sinCosA3
  have heq : ((60.15198 : ℝ) * Real.pi / 180) / 4 = 2 * (((60.15198 : ℝ) * Real.pi / 180) / 8) := by ring
  rw [heq]
  have hd := sin_cos_double_bounds hp.1 hp.2.1 hp.2.2.1 hp.2.2.2
    (by norm_num) (by norm_num)
  exact ⟨le_trans (by norm_num) hd.1, le_trans hd.2.1 (by norm_num),
    le_trans (by norm_num) hd.2.2.1, le_trans hd.2.2.2 (by norm_num)⟩

/-- Doubling step 5 of the sine and cosine interval chain. -/
theorem sinCosA5 :
    0.501148018589369 ≤ Real.sin (((60.15198 : ℝ) * Real.pi / 180) / 2) ∧
      Real.sin (((60.15198 : ℝ) * Real.pi / 180) / 2) ≤ 0.501148274834811 ∧
        0.865361441054687 ≤ Real.cos (((60.15198 : ℝ) * Real.pi / 180) / 2) ∧
          Real.cos (((60.15198 : ℝ) * Real.pi / 180) / 2) ≤ 0.86536156976712 := by
  have hp := sinCosA4
  have heq : ((60.15198 : ℝ) * Real.pi / 180) / 2 = 2 * (((60.15198 : ℝ) * Real.pi / 180) / 4) := by ring
  rw [heq]
  have hd := sin_cos_double_bounds hp.1 hp.2.1 hp.2.2.1 hp.2.2.2
    (by norm_num) (by norm_num)
  exact ⟨le_trans (by norm_num) hd.1, le_trans hd.2.1 (by norm_num),
    le_trans (by norm_num) hd.2.2.1, le_trans hd.2.2.2 (by norm_num)⟩

/-- Doubling step 6 of the sine and cosine interval chain. -/
theorem sinCosA6 :
    0.867348343096394 ≤ Real.sin (((60.15198 : ℝ) * Real.pi / 180)) ∧
      Real.sin (((60.15198 : ℝ) * Real.pi / 180)) ≤ 0.867348915594273 ∧
        0.497700813260185 ≤ Real.cos (((60.15198 : ℝ) * Real.pi / 180)) ∧
          Real.cos (((60.15198 : ℝ) * Real.pi / 180)) ≤ 0.497701326927899 := by
  have hp := sinCosA5
  have heq : ((60.15198 : ℝ) * Real.pi / 180) = 2 * (((60.15198 : ℝ) * Real.pi / 180) / 2) := by ring
  rw [heq]
  have hd := sin_cos_double_bounds hp.1 hp.2.1 hp.2.2.1 hp.2.2.2
    (by norm_num) (by norm_num)
  exact ⟨le_trans (by norm_num) hd.1, le_trans hd.2.1 (by norm_num),
    le_trans (by norm_num) hd.2.2.1, le_trans hd.2.2.2 (by norm_num)⟩

/-- Numeric bounds on `asinh (tan theta)` for latitude 60.15198. -/
theorem arsinhTanA_bounds :
    1.320757458372 ≤ Real.arsinh (Real.tan ((60.15198 : ℝ) * Real.pi / 180)) ∧ Real.arsinh (Real.tan ((60.15198 : ℝ) * Real.pi / 180)) ≤ 1.322291439156 := by
  have hsc := sinCosA6
  have hcpos : 0 < Real.cos ((60.15198 : ℝ) * Real.pi / 180) :=
    lt_of_lt_of_le (by norm_num) hsc.2.2.1
  have hv : Real.exp (Real.arsinh (Real.tan ((60.15198 : ℝ) * Real.pi / 180))) =
      (1 + Real.sin ((60.15198 : ℝ) * Real.pi / 180)) / Real.cos ((60.15198 : ℝ) * Real.pi / 180) := by
    rw [Real.exp_arsinh, Real.tan_eq_sin_div_cos]
    rw [show 1 + (Real.sin ((60.15198 : ℝ) * Real.pi / 180) / Real.cos ((60.15198 : ℝ) * Real.pi / 180)) ^ 2 =
        (1 / Real.cos ((60.15198 : ℝ) * Real.pi / 180)) ^ 2 from by
      have hpy := Real.sin_sq_add_cos_sq ((60.15198 : ℝ) * Real.pi / 180)
      field_simp
      try nlinarith [hpy]]
    rw [Real.sqrt_sq (by positivity)]
    field_simp
    try ring
  constructor
  · rw [← Real.exp_le_exp, hv]
    have hq : Real.exp (0.330189364593 : ℝ) ≤ 1.3912315535185 := by
      have hb := @Real.exp_bound' (0.330189364593 : ℝ) (by norm_num)
        (by norm_num) 10 (by norm_num)
      refine le_trans hb ?_
      norm_num [Finset.sum_range_succ, Nat.factorial]
    have hexp : Real.exp (1.320757458372 : ℝ) ≤ (1.3912315535185 : ℝ) ^ 4 := by
      rw [show (1.320757458372 : ℝ) = ((4 : ℕ) : ℝ) * 0.330189364593 from by norm_num,
        Real.exp_nat_mul]
      exact pow_le_pow_left (le_of_lt (Real.exp_pos _)) hq 4
    refine le_trans hexp ?_
    rw [le_div_iff hcpos]
    nlinarith [hsc.1, hsc.2.2.2]
  · rw [← Real.exp_le_exp, hv]
    have hq : (1.39176518644736 : ℝ) ≤ Real.exp (0.330572859789 : ℝ) := by
      have hb := Real.sum_le_exp_of_nonneg
        (by norm_num : (0 : ℝ) ≤ (0.330572859789 : ℝ)) 10
      refine le_trans ?_ hb
      norm_num [Finset.sum_range_succ, Nat.factorial]
    have hexp : (1.39176518644736 : ℝ) ^ 4 ≤ Real.exp (1.322291439156 : ℝ) := by
      rw [show (1.322291439156 : ℝ) = ((4 : ℕ) : ℝ) * 0.330572859789 from by norm_num,
        Real.exp_nat_mul]
      exact pow_le_pow_left (by norm_num) hq 4
    refine le_trans ?_ hexp
    rw [div_le_iff hcpos]
    nlinarith [hsc.2.1, hsc.2.2.1]

/-- The truncated tile y coordinate of latitude 60.15198 at zoom 12. -/
theorem latTileA : latToTile 60.15198 12 = 1186 := by
  have hA := arsinhTanA_bounds
  have hp1 := Real.pi_gt_d20
  have hp2 := Real.pi_lt_d20
  have hp0 := Real.pi_pos
  have hle : Real.arsinh (Real.tan ((60.15198 : ℝ) * Real.pi / 180)) / Real.pi ≤ 862 / 2048 := by
    rw [div_le_div_iff hp0 (by norm_num)]
    nlinarith [hA.2, hp1]
  have hgt : (861 : ℝ) / 2048 < Real.arsinh (Real.tan ((60.15198 : ℝ) * Real.pi / 180)) / Real.pi := by
    rw [div_lt_div_iff (by norm_num) hp0]
    nlinarith [hA.1, hp2]
  have h4096 : ((2 : ℝ) ^ (12 : ℕ)) = 4096 := by norm_num
  rw [latToTile, latToYpx, latToY, Int.floor_eq_iff, h4096]
  push_cast
  constructor
  · linarith [hle]
  · linarith [hgt]

/-- Rational bounds on the latitude angle 60.17582 degrees in radians. -/
theorem thetaB_bounds :
    1.05026618908745 ≤ ((60.17582 : ℝ) * Real.pi / 180) ∧ ((60.17582 : ℝ) * Real.pi / 180) ≤ 1.05026618908746 := by
  have h1 := Real.pi_gt_d20
  have h2 := Real.pi_lt_d20
  constructor <;> nlinarith

/-- Taylor bounds for sine and cosine at one 64th of the angle. -/
theorem sinCosB0 :
    0.016409668869183 ≤ Real.sin (((60.17582 : ℝ) * Real.pi / 180) / 64) ∧
      Real.sin (((60.17582 : ℝ) * Real.pi / 180) / 64) ≤ 0.016409676423696 ∧
        0.999865345457614 ≤ Real.cos (((60.17582 : ℝ) * Real.pi / 180) / 64) ∧
          Real.cos (((60.17582 : ℝ) * Real.pi / 180) / 64) ≤ 0.999865353012127 := by
  obtain ⟨ht1, ht2⟩ := thetaB_bounds
  have hb := @sin_cos_base_bounds (((60.17582 : ℝ) * Real.pi / 180) / 64) 0.0164104092044914 0.0164104092044916
    (by norm_num) (by linarith) (by linarith) (by norm_num)
  exact ⟨le_trans (by norm_num) hb.1, le_trans hb.2.1 (by norm_num),
    le_trans (by norm_num) hb.2.2.1, le_trans hb.2.2.2 (by norm_num)⟩

/-- Doubling step 1 of the sine and cosine interval chain. -/
theorem sinCosB1 :
    0.032814918465461 ≤ Real.sin (((60.17582 : ℝ) * Real.pi / 180) / 32) ∧
      Real.sin (((60.17582 : ℝ) * Real.pi / 180) / 32) ≤ 0.032814933820388 ∧
        0.999461445039339 ≤ Real.cos (((60.17582 : ℝ) * Real.pi / 180) / 32) ∧
          Real.cos (((60.17582 : ℝ) * Real.pi / 180) / 32) ≤ 0.999461445535208 := by
  have hp := sinCosB0
  have heq : ((60.17582 : ℝ) * Real.pi / 180) / 32 = 2 * (((60.17582 : ℝ) * Real.pi / 180) / 64) := by ring
  rw [heq]
  have hd := sin_cos_double_bounds hp.1 hp.2.1 hp.2.2.1 hp.2.2.2
    (by norm_num) (by norm_num)
  exact ⟨le_trans (by norm_num) hd.1, le_trans hd.2.1 (by norm_num),
    le_trans (by norm_num) hd.2.2.1, le_trans hd.2.2.2 (by norm_num)⟩

/-- Doubling step 2 of the sine and cosine interval chain. -/
theorem sinCosB2 :
    0.065594491656675 ≤ Real.sin (((60.17582 : ℝ) * Real.pi / 180) / 16) ∧
      Real.sin (((60.17582 : ℝ) * Real.pi / 180) / 16) ≤ 0.065594522382535 ∧
        0.997846360236727 ≤ Real.cos (((60.17582 : ℝ) * Real.pi / 180) / 16) ∧
          Real.cos (((60.17582 : ℝ) * Real.pi / 180) / 16) ≤ 0.997846362252211 := by
  have hp := sinCosB1
  have heq : ((60.17582 : ℝ) * Real.pi / 180) / 16 = 2 * (((60.17582 : ℝ) * Real.pi / 180) / 32) := by ring
  rw [heq]
  have hd := sin_cos_double_bounds hp.1 hp.2.1 hp.2.2.1 hp.2.2.2
    (by norm_num) (by norm_num)
  exact ⟨le_trans (by norm_num) hd.1, le_trans hd.2.1 (by norm_num),
    le_trans (by norm_num) hd.2.2.1, le_trans hd.2.2.2 (by norm_num)⟩

/-- Doubling step 3 of the sine and cosine interval chain. -/
theorem sinCosB3 :
    0.130906449502383 ≤ Real.sin (((60.17582 : ℝ) * Real.pi / 180) / 8) ∧
      Real.sin (((60.17582 : ℝ) * Real.pi / 180) / 8) ≤ 0.130906511086168 ∧
        0.991394717266814 ≤ Real.cos (((60.17582 : ℝ) * Real.pi / 180) / 8) ∧
          Real.cos (((60.17582 : ℝ) * Real.pi / 180) / 8) ≤ 0.991394725328605 := by
  have hp := sinCosB2
  have heq : ((60.17582 : ℝ) * Real.pi / 180) / 8 = 2 * (((60.17582 : ℝ) * Real.pi / 180) / 16) := by ring
  rw [heq]
  have hd := sin_cos_double_bounds hp.1 hp.2.1 hp.2.2.1 hp.2.2.2
    (by norm_num) (by norm_num)
  exact ⟨le_trans (by norm_num) hd.1, le_trans hd.2.1 (by norm_num),
    le_trans (by norm_num) hd.2.2.1, le_trans hd.2.2.2 (by norm_num)⟩

/-- Doubling step 4 of the sine and cosine interval chain. -/
theorem sinCosB4 :
    0.259559924985634 ≤ Real.sin (((60.17582 : ℝ) * Real.pi / 180) / 4) ∧
      Real.sin (((60.17582 : ℝ) * Real.pi / 180) / 4) ≤ 0.259560049203996 ∧
        0.965726970710493 ≤ Real.cos (((60.17582 : ℝ) * Real.pi / 180) / 4) ∧
          Real.cos (((60.17582 : ℝ) * Real.pi / 180) / 4) ≤ 0.965727002957361 := by
  have hp := sinCosB3
  have heq : ((60.17582 : ℝ) * Real.pi / 180) / 4 = 2 * (((60.17582 : ℝ) * Real.pi / 180) / 8) := by ring
  rw [heq]
  have hd := sin_cos_double_bounds hp.1 hp.2.1 hp.2.2.1 hp.2.2.2
    (by norm_num) (by norm_num)
  exact ⟨le_trans (by norm_num) hd.1, le_trans hd.2.1 (by norm_num),
    le_trans (by norm_num) hd.2.2.1, le_trans hd.2.2.2 (by norm_num)⟩

/-- Doubling step 5 of the sine and cosine interval chain. -/
theorem sinCosB5 :
    0.501328040148438 ≤ Real.sin (((60.17582 : ℝ) * Real.pi / 180) / 2) ∧
      Real.sin (((60.17582 : ℝ) * Real.pi / 180) / 2) ≤ 0.501328296810481 ∧
        0.865257161714438 ≤ Real.cos (((60.17582 : ℝ) * Real.pi / 180) / 2) ∧
          Real.cos (((60.17582 : ℝ) * Real.pi / 180) / 2) ≤ 0.865257290682905 := by
  have hp := sinCosB4
  have heq : ((60.17582 : ℝ) * Real.pi / 180) / 2 = 2 * (((60.17582 : ℝ) * Real.pi / 180) / 4) := by ring
  rw [heq]
  have hd := sin_cos_double_bounds hp.1 hp.2.1 hp.2.2.1 hp.2.2.2
    (by norm_num) (by norm_num)
  exact ⟨le_trans (by norm_num) hd.1, le_trans hd.2.1 (by norm_num),
    le_trans (by norm_num) hd.2.2.1, le_trans hd.2.2.2 (by norm_num)⟩

/-- Doubling step 6 of the sine and cosine interval chain. -/
theorem sinCosB6 :
    0.867555354213398 ≤ Real.sin (((60.17582 : ℝ) * Real.pi / 180)) ∧
      Real.sin (((60.17582 : ℝ) * Real.pi / 180)) ≤ 0.867555927681825 ∧
        0.497339877634204 ≤ Real.cos (((60.17582 : ℝ) * Real.pi / 180)) ∧
          Real.cos (((60.17582 : ℝ) * Real.pi / 180)) ≤ 0.497340392321853 := by
  have hp := sinCosB5
  have heq : ((60.17582 : ℝ) * Real.pi / 180) = 2 * (((60.17582 : ℝ) * Real.pi / 180) / 2) := by ring
  rw [heq]
  have hd := sin_cos_double_bounds hp.1 hp.2.1 hp.2.2.1 hp.2.2.2
    (by norm_num) (by norm_num)
  exact ⟨le_trans (by norm_num) hd.1, le_trans hd.2.1 (by norm_num),
    le_trans (by norm_num) hd.2.2.1, le_trans hd.2.2.2 (by norm_num)⟩

/-- Numeric bounds on `asinh (tan theta)` for latitude 60.17582. -/
theorem arsinhTanB_bounds :
    1.32229143916 ≤ Real.arsinh (Real.tan ((60.17582 : ℝ) * Real.pi / 180)) ∧ Real.arsinh (Real.tan ((60.17582 : ℝ) * Real.pi / 180)) ≤ 1.323825419944 := by
  have hsc := sinCosB6
  have hcpos : 0 < Real.cos ((60.17582 : ℝ) * Real.pi / 180) :=
    lt_of_lt_of_le (by norm_num) hsc.2.2.1
  have hv : Real.exp (Real.arsinh (Real.tan ((60.17582 : ℝ) * Real.pi / 180))) =
      (1 + Real.sin ((60.17582 : ℝ) * Real.pi / 180)) / Real.cos ((60.17582 : ℝ) * Real.pi / 180) := by
    rw [Real.exp_arsinh, Real.tan_eq_sin_div_cos]
    rw [show 1 + (Real.sin ((60.17582 : ℝ) * Real.pi / 180) / Real.cos ((60.17582 : ℝ) * Real.pi / 180)) ^ 2 =
        (1 / Real.cos ((60.17582 : ℝ) * Real.pi / 180)) ^ 2 from by
      have hpy := Real.sin_sq_add_cos_sq ((60.17582 : ℝ) * Real.pi / 180)
      field_simp
      try nlinarith [hpy]]
    rw [Real.sqrt_sq (by positivity)]
    field_simp
    try ring
  constructor
  · rw [← Real.exp_le_exp, hv]
    have hq : Real.exp (0.33057285979 : ℝ) ≤ 1.39176518645349 := by
      have hb := @Real.exp_bound' (0.33057285979 : ℝ) (by norm_num)
        (by norm_num) 10 (by norm_num)
      refine le_trans hb ?_
      norm_num [Finset.sum_range_succ, Nat.factorial]
    have hexp : Real.exp (1.32229143916 : ℝ) ≤ (1.39176518645349 : ℝ) ^ 4 := by
      rw [show (1.32229143916 : ℝ) = ((4 : ℕ) : ℝ) * 0.33057285979 from by norm_num,
        Real.exp_nat_mul]
      exact pow_le_pow_left (le_of_lt (Real.exp_pos _)) hq 4
    refine le_trans hexp ?_
    rw [le_div_iff hcpos]
    nlinarith [hsc.1, hsc.2.2.2]
  · rw [← Real.exp_le_exp, hv]
    have hq : (1.39229902406721 : ℝ) ≤ Real.exp (0.330956354986 : ℝ) := by
      have hb := Real.sum_le_exp_of_nonneg
        (by norm_num : (0 : ℝ) ≤ (0.330956354986 : ℝ)) 10
      refine le_trans ?_ hb
      norm_num [Finset.sum_range_succ, Nat.factorial]
    have hexp : (1.39229902406721 : ℝ) ^ 4 ≤ Real.exp (1.323825419944 : ℝ) := by
      rw [show (1.323825419944 : ℝ) = ((4 : ℕ) : ℝ) * 0.330956354986 from by norm_num,
        Real.exp_nat_mul]
      exact pow_le_pow_left (by norm_num) hq 4
    refine le_trans ?_ hexp
    rw [div_le_iff hcpos]
    nlinarith [hsc.2.1, hsc.2.2.1]

/-- The truncated tile y coordinate of latitude 60.17582 at zoom 12. -/
theorem latTileB : latToTile 60.17582 12 = 1185 := by
  have hA := arsinhTanB_bounds
  have hp1 := Real.pi_gt_d20
  have hp2 := Real.pi_lt_d20
  have hp0 := Real.pi_pos
  have hle : Real.arsinh (Real.tan ((60.17582 : ℝ) * Real.pi / 180)) / Real.pi ≤ 863 / 2048 := by
    rw [div_le_div_iff hp0 (by norm_num)]
    nlinarith [hA.2, hp1]
  have hgt : (862 : ℝ) / 2048 < Real.arsinh (Real.tan ((60.17582 : ℝ) * Real.pi / 180)) / Real.pi := by
    rw [div_lt_div_iff (by norm_num) hp0]
    nlinarith [hA.1, hp2]
  have h4096 : ((2 : ℝ) ^ (12 : ℕ)) = 4096 := by norm_num
  rw [latToTile, latToYpx, latToY, Int.floor_eq_iff, h4096]
  push_cast
  constructor
  · linarith [hle]
  · linarith [hgt]

/-- The truncated tile x coordinate of longitude 24.90550 at zoom 12. -/
theorem lonTile1 : lonToTile 24.90550 12 = 2331 := by
  rw [lonToTile, lonToXpx, lonToX, Int.floor_eq_iff]
  norm_num

/-- The truncated tile x coordinate of longitude 24.96273 at zoom 12. -/
theorem lonTile2 : lonToTile 24.96273 12 = 2332 := by
  rw [lonToTile, lonToXpx, lonToX, Int.floor_eq_iff]
  norm_num

/-- C8: enumerating the tiles of the bounding box
`(60.15198, 24.90550, 60.17582, 24.96273)` at zoom 12 yields exactly the
four tile addresses of the spec, in the rectangle-scan order. -/
theorem C8_bbox_tiles :
    get_tile_xyz_bbox (60.15198, 24.90550, 60.17582, 24.96273) 12 =
      [(2331, 1185, 12), (2331, 1186, 12), (2332, 1185, 12),
       (2332, 1186, 12)] := by
  have hx1 : lonToTile (60.15198,
      (24.90550 : ℝ), (60.17582 : ℝ), (24.96273 : ℝ)).2.1 12 = 2331 := lonTile1
  have hx2 : lonToTile ((60.15198 : ℝ), (24.90550 : ℝ), (60.17582 : ℝ),
      (24.96273 : ℝ)).2.2.2 12 = 2332 := lonTile2
  have hy1 : latToTile ((60.15198 : ℝ), (24.90550 : ℝ), (60.17582 : ℝ),
      (24.96273 : ℝ)).1 12 = 1186 := latTileA
  have hy2 : latToTile ((60.15198 : ℝ), (24.90550 : ℝ), (60.17582 : ℝ),
      (24.96273 : ℝ)).2.2.1 12 = 1185 := latTileB
  rw [get_tile_xyz_bbox, hx1, hx2, hy1, hy2]
  norm_num [intRange]
  decide


end DpgMap
